import Mathlib

set_option autoImplicit false

/-!
Verification development for the TalkToBI pipeline core.

The repository sources available are the frontend (chatbi-frontend, TypeScript)
and the database initialisation scripts (chatbi-backend/scripts). The backend
orchestrator, cache store service and session layer are not among the sources;
where a property depends on them, the corresponding definition is modelled from
the specification and marked as such in its doc comment. Everything else is a
direct shallow embedding of the TypeScript / SQL sources.
-/

namespace TalkToBI

/-! ### Wire protocol and frontend chat state (src/chatbi-frontend/src/hooks/useChat.ts) -/

/-- ProcessingStage from src/chatbi-frontend/src/api/types.ts: the five pipeline stages. -/
inductive ProcessingStage
  | intent
  | planner
  | executor
  | analyzer
  | responder
deriving DecidableEq

/-- STAGE_DESCRIPTIONS from useChat.ts: fixed per-stage description text. -/
def STAGE_DESCRIPTIONS : ProcessingStage → String
  | .intent => "🔍 正在理解您的问题..."
  | .planner => "📝 正在生成查询方案..."
  | .executor => "⚡ 正在执行数据查询..."
  | .analyzer => "📊 正在分析数据..."
  | .responder => "💬 正在生成回答..."

/-- Payload of a status message (WSStatusPayload). -/
structure WSStatusPayload where
  stage : ProcessingStage
  message : String
deriving DecidableEq

/-- Payload field data_insight of a complete message. -/
structure WSDataInsight where
  highlights : List String
deriving DecidableEq

/-- Payload of a complete message (WSCompletePayload). -/
structure WSCompletePayload where
  message_id : String
  text_answer : String
  sql_query : Option String
  data_insight : Option WSDataInsight
  visualization : Option String
  debug : Option String
deriving DecidableEq

/-- Payload of an error message (WSErrorPayload). -/
structure WSErrorPayload where
  code : String
  message : String
deriving DecidableEq

/-- Payload of an interrupted message; the useChat handler ignores its fields. -/
structure WSInterruptedPayload where
  message_id : String
  partial_answer : Option String
deriving DecidableEq

/-- Inbound server→client messages dispatched by handleMessage in useChat.ts. -/
inductive WSMessage
  | status (payload : WSStatusPayload)
  | text_chunk (content : String)
  | complete (payload : WSCompletePayload)
  | error (payload : WSErrorPayload)
  | interrupted (payload : WSInterruptedPayload)
  | pong
deriving DecidableEq

/-- Role of a chat message. -/
inductive ChatRole
  | user
  | assistant
deriving DecidableEq

/-- ChatMessage from useChat.ts (timestamp omitted; it is never read by the handlers). -/
structure ChatMessage where
  id : String
  role : ChatRole
  content : String
  isStreaming : Bool
  stage : Option ProcessingStage
  sqlQuery : Option String
  visualization : Option String
  debug : Option String
  highlights : Option (List String)
  error : Option String
deriving DecidableEq

/-- The mutable state of the useChat hook that the message handlers touch:
the messages array, the isLoading flag and currentMessageIdRef. -/
structure ChatState where
  messages : List ChatMessage
  isLoading : Bool
  currentMessageId : Option String
deriving DecidableEq

/-- updateCurrentMessage from useChat.ts: if currentMessageIdRef is null, return
early; otherwise apply the field updates to the message whose id matches. -/
def updateCurrentMessage (s : ChatState) (f : ChatMessage → ChatMessage) : ChatState :=
  match s.currentMessageId with
  | none => s
  | some msgId =>
      { s with messages := s.messages.map (fun m => if m.id = msgId then f m else m) }

/-- handleStatus from useChat.ts: show the stage description on the current message. -/
def handleStatus (s : ChatState) (payload : WSStatusPayload) : ChatState :=
  updateCurrentMessage s (fun m =>
    { m with content := STAGE_DESCRIPTIONS payload.stage, stage := some payload.stage })

/-- handleComplete from useChat.ts: replace the current message content with the
final text_answer, attach the result payloads, stop loading and clear the
current-message reference. -/
def handleComplete (s : ChatState) (payload : WSCompletePayload) : ChatState :=
  let s1 := updateCurrentMessage s (fun m =>
    { m with
        content := payload.text_answer
        isStreaming := false
        sqlQuery := payload.sql_query
        visualization := payload.visualization
        debug := payload.debug
        highlights := payload.data_insight.map WSDataInsight.highlights })
  { s1 with isLoading := false, currentMessageId := none }

/-- handleError from useChat.ts. -/
def handleError (s : ChatState) (payload : WSErrorPayload) : ChatState :=
  let s1 := updateCurrentMessage s (fun m =>
    { m with
        content := "错误: " ++ payload.message
        isStreaming := false
        error := some payload.message })
  { s1 with isLoading := false, currentMessageId := none }

/-- handleMessage from useChat.ts: dispatch on the message type. A text_chunk is
appended to the message whose id equals currentMessageIdRef (no message matches
when the reference is null); interrupted replaces the content, stops loading and
clears the reference; pong does nothing. -/
def handleMessage (s : ChatState) (msg : WSMessage) : ChatState :=
  match msg with
  | .status payload => handleStatus s payload
  | .text_chunk chunk =>
      { s with messages := s.messages.map (fun m =>
          if some m.id = s.currentMessageId then { m with content := m.content ++ chunk } else m) }
  | .complete payload => handleComplete s payload
  | .error payload => handleError s payload
  | .interrupted _ =>
      let s1 := updateCurrentMessage s (fun m =>
        { m with content := "查询已中断", isStreaming := false })
      { s1 with isLoading := false, currentMessageId := none }
  | .pong => s

/-- Fold handleMessage over a list of inbound messages. -/
def handleMessages (s : ChatState) (msgs : List WSMessage) : ChatState :=
  msgs.foldl handleMessage s

/-- A message is terminal when it is complete, error or interrupted. -/
def WSMessage.isTerminalMsg : WSMessage → Bool
  | .complete _ => true
  | .error _ => true
  | .interrupted _ => true
  | _ => false

/-! ### Cache store (query_cache table, schema_update_v2.sql; CacheEntry type and
admin operations, src/chatbi-frontend/src/api/cache.ts and the Knowledge/Cache page) -/

/-- Lifecycle status of a cache entry: active / deprecated / invalid
(query_cache.status in schema_update_v2.sql). -/
inductive CacheStatus
  | active
  | deprecated
  | invalid
deriving DecidableEq

/-- CacheEntry: one row of the query_cache table (schema_update_v2.sql; mirrored
by the CacheEntry interface in src/chatbi-frontend/src/api/types.ts). -/
structure CacheEntry where
  id : Nat
  query_hash : String
  original_query : String
  rewritten_query : Option String
  sql : String
  tables_used : List String
  cache_score : Nat
  hit_count : Nat
  status : CacheStatus
deriving DecidableEq

/-- Number of rows of the store carrying a given fingerprint. -/
def countFingerprint (store : List CacheEntry) (fp : String) : Nat :=
  store.countP (fun e => e.query_hash = fp)

/-- Arguments of a first-success cache write. -/
structure UpsertArgs where
  rowId : Nat
  fingerprint : String
  question : String
  rewritten : Option String
  queryText : String
  tables : List String
  score : Nat
deriving DecidableEq

/-- The fresh row a first-success cache write stores: hit_count 0, status active
(column defaults of query_cache in schema_update_v2.sql). -/
def newCacheRow (a : UpsertArgs) : CacheEntry :=
  { id := a.rowId
    query_hash := a.fingerprint
    original_query := a.question
    rewritten_query := a.rewritten
    sql := a.queryText
    tables_used := a.tables
    cache_score := a.score
    hit_count := 0
    status := .active }

/-- Modelled from the spec: upsertOnFirstSuccess of the cache store. The service
code is not among the sources; per the spec it is an atomic insert-if-absent,
realised by the UNIQUE constraint on query_cache.query_hash in
schema_update_v2.sql with conflict-is-a-no-op, so a write for a fingerprint that
is already present leaves the store unchanged. -/
def upsertOnFirstSuccess (store : List CacheEntry) (a : UpsertArgs) : List CacheEntry :=
  if store.any (fun e => e.query_hash = a.fingerprint) then store
  else store ++ [newCacheRow a]

/-- Modelled from the spec: recordHit of the cache store (service code not among
the sources) increments the hit count of the row with the given fingerprint. -/
def recordHit (store : List CacheEntry) (fp : String) : List CacheEntry :=
  store.map (fun e => if e.query_hash = fp then { e with hit_count := e.hit_count + 1 } else e)

/-- The administrative status change: handleStatusChange on the Knowledge/Cache
page calls cacheApi.updateStatus (PUT /cache/id/status) with any of the three
statuses offered by the select control, active included; the backend handler is
not among the sources and is modelled as setting the addressed row's status to
the requested value. -/
def updateStatus (store : List CacheEntry) (id : Nat) (status : CacheStatus) : List CacheEntry :=
  store.map (fun e => if e.id = id then { e with status := status } else e)

/-- The store operations that can run, interleaved, against the cache table. -/
inductive CacheOp
  | upsert (a : UpsertArgs)
  | hit (fp : String)
  | setStatus (id : Nat) (status : CacheStatus)
deriving DecidableEq

/-- Apply one cache operation. -/
def applyCacheOp (store : List CacheEntry) : CacheOp → List CacheEntry
  | .upsert a => upsertOnFirstSuccess store a
  | .hit fp => recordHit store fp
  | .setStatus id st => updateStatus store id st

/-- Apply a serialised history of cache operations. -/
def applyCacheOps (store : List CacheEntry) (ops : List CacheOp) : List CacheEntry :=
  ops.foldl applyCacheOp store

/-- Modelled from the spec: the cache scoring policy. The scoring code is not
among the sources; the formula is recorded by the source comment on
query_cache.cache_score in schema_update_v2.sql (SQL success +30, non-empty +20,
ResultValidator +20, CompletenessValidator +20, PathValidator +10). -/
def cache_score (sqlSuccess nonEmpty resultValidator completenessValidator pathValidator : Bool) : Nat :=
  (if sqlSuccess then 30 else 0)
    + (if nonEmpty then 20 else 0)
    + (if resultValidator then 20 else 0)
    + (if completenessValidator then 20 else 0)
    + (if pathValidator then 10 else 0)

/-! ### Cache fingerprint (query_cache.query_hash) -/

/-- A digest value: the application of a named hash algorithm to an input text.
The hash algorithm itself (SHA256) is a library function, not repository code;
what the repository fixes is which text is hashed, which this wrapper records. -/
structure Digest where
  algorithm : String
  input : String
deriving DecidableEq

/-- The question texts a run carries: the original question and the rewritten
question the Intent stage produced. -/
structure RunQuestion where
  original : String
  rewritten : String
deriving DecidableEq

/-- query_hash per schema_update_v2.sql: the column definition and its source
comment state SHA256(original question), used for exact matching. -/
def query_hash_of (r : RunQuestion) : Digest :=
  { algorithm := "SHA256", input := r.original }

/-- Stated per the spec's words, for comparison with the source definition: the
fingerprint as a content hash of the rewritten (normalized) question. -/
def spec_fingerprint_of (r : RunQuestion) : Digest :=
  { algorithm := "SHA256", input := r.rewritten }

/-! ### Execution journal (execution_log table; src/chatbi-frontend/src/api/logs.ts) -/

/-- execution_log.status: success / error / timeout / pending. -/
inductive LogStatus
  | success
  | error
  | timeout
  | pending
deriving DecidableEq

/-- LogEntry: one row of the execution_log table (creation script and the
LogEntry interface in src/chatbi-frontend/src/api/types.ts). -/
structure LogEntry where
  id : Nat
  query_text : String
  rewritten_query : Option String
  sql_generated : Option String
  tables_used : List String
  status : LogStatus
  error_message : Option String
  result_row_count : Option Nat
  execution_time_ms : Option Nat
  cache_score : Option Nat
  cache_hit : Bool
  session_id : Option String
  message_id : Option String
  created_at : Nat
deriving DecidableEq

/-- The operations that touch the journal: the modelled-from-the-spec append
(the writer is not among the sources; per the spec every write is its own
independent row), and the explicit administrative deletions exposed by
logsApi.delete and logsApi.cleanup in src/chatbi-frontend/src/api/logs.ts
(cleanup removes rows older than a cutoff). -/
inductive JournalOp
  | append (e : LogEntry)
  | deleteRow (id : Nat)
  | cleanup (cutoff : Nat)
deriving DecidableEq

/-- Apply one journal operation. -/
def applyJournalOp (j : List LogEntry) : JournalOp → List LogEntry
  | .append e => j ++ [e]
  | .deleteRow id => j.filter (fun e => ¬ e.id = id)
  | .cleanup cutoff => j.filter (fun e => cutoff ≤ e.created_at)

/-- Apply a history of journal operations. -/
def applyJournalOps (j : List LogEntry) (ops : List JournalOp) : List LogEntry :=
  ops.foldl applyJournalOp j

/-! ### Pipeline orchestrator (modelled from the spec)

The orchestrator itself is backend code that is not among the sources; the
following state machine is modelled from the specification: stages Intent →
Planning → Executing → Analyzing → Responding → Done with the Diagnosing side
loop reachable only from Executing, a cache hit short-circuiting Planning to
Responding, and wire events emitted as the machine steps. -/

/-- Server→client wire events of the session protocol. -/
inductive WireEvent
  | status (stage : ProcessingStage) (message : String)
  | text_chunk (content : String) (chunk_index : Nat)
  | complete (text_answer : String)
  | error (message : String)
  | interrupted (message_id : String)
deriving DecidableEq

/-- Outcome of one Execute attempt: success with a row count, a schema error
(correctable or not), or a fatal error. -/
inductive ExecOutcome
  | rows (count : Nat)
  | schemaError (correctable : Bool)
  | fatal (message : String)
deriving DecidableEq

/-- The external collaborators of one run, abstracted as data: the Intent
rewrite (none = intent failure), the active cache hit if any, the outcome of the
k-th Execute attempt, the streamed answer chunks and the final answer text. -/
structure Collaborators where
  intentResult : Option String
  cachedAnswer : Option String
  execOutcome : Nat → ExecOutcome
  answerChunks : List String
  finalAnswer : String

/-- Outcome of the Execute/Diagnose cycle. -/
inductive LoopOutcome
  | success
  | exhausted
  | fatalError (message : String)
deriving DecidableEq

/-- The status event emitted on entering Executing. -/
def executingStatus : WireEvent :=
  .status .executor "正在执行数据查询..."

/-- The status event emitted when diagnosis requests a rewritten plan. -/
def replanStatus : WireEvent :=
  .status .planner "正在生成查询方案..."

/-- The terminal answer text used when diagnosis exhausts. -/
def noResultsMessage : String :=
  "未找到匹配的结果"

/-- Modelled from the spec: the Execute/Diagnose cycle. budget is the number of
diagnosis attempts still allowed, so the per-run attempt counter of the spec is
cap − budget; incrementing the counter and comparing it against the cap strictly
before any repair action corresponds to matching on the remaining budget before
the recursive call. A zero-row result spends an attempt when budget remains and
exhausts otherwise; a correctable schema error does the same; an uncorrectable
schema error exhausts immediately; a fatal error ends the loop; k counts the
Execute attempts made so far. -/
def execLoop (c : Collaborators) (budget : Nat) (k : Nat) : List WireEvent × LoopOutcome :=
  match c.execOutcome k with
  | .fatal msg => ([executingStatus], .fatalError msg)
  | .rows (_ + 1) => ([executingStatus], .success)
  | .rows 0 =>
      match budget with
      | 0 => ([executingStatus], .exhausted)
      | b + 1 =>
          let r := execLoop c b (k + 1)
          (executingStatus :: replanStatus :: r.1, r.2)
  | .schemaError correctable =>
      if correctable then
        match budget with
        | 0 => ([executingStatus], .exhausted)
        | b + 1 =>
            let r := execLoop c b (k + 1)
            (executingStatus :: replanStatus :: r.1, r.2)
      else ([executingStatus], .exhausted)

/-- Turn the streamed answer chunks into text_chunk events with consecutive
chunk indices starting at 0. -/
def chunkEvents (chunks : List String) : List WireEvent :=
  chunks.enum.map (fun p => WireEvent.text_chunk p.2 p.1)

/-- Modelled from the spec: one full pipeline run, as the ordered list of wire
events it emits. Intent failure is terminal with an error event; an active
cache hit skips from Planning to Responding; otherwise the Execute/Diagnose
cycle runs with the configured cap as its attempt budget, a fatal outcome ends
in an error event, success passes through Analyzing and Responding to a
complete event, and exhaustion ends in a normal completion carrying the
no-results answer. -/
def runPipeline (c : Collaborators) (cap : Nat) : List WireEvent :=
  let intentEvs : List WireEvent := [.status .intent "正在理解您的问题..."]
  match c.intentResult with
  | none => intentEvs ++ [.error "intent failed"]
  | some _ =>
      let planEvs := intentEvs ++ [WireEvent.status .planner "正在生成查询方案..."]
      match c.cachedAnswer with
      | some ans =>
          planEvs ++ [WireEvent.status .responder "正在生成回答..."]
            ++ chunkEvents c.answerChunks ++ [WireEvent.complete ans]
      | none =>
          let r := execLoop c cap 0
          match r.2 with
          | .fatalError msg => planEvs ++ r.1 ++ [WireEvent.error msg]
          | .success =>
              planEvs ++ r.1
                ++ [WireEvent.status .analyzer "正在分析数据...",
                    WireEvent.status .responder "正在生成回答..."]
                ++ chunkEvents c.answerChunks ++ [WireEvent.complete c.finalAnswer]
          | .exhausted =>
              planEvs ++ r.1 ++ [WireEvent.status .responder "正在生成回答..."]
                ++ [WireEvent.complete noResultsMessage]

/-- A wire event is a status event. -/
def isStatus : WireEvent → Bool
  | .status _ _ => true
  | _ => false

/-- A wire event is a text chunk. -/
def isChunk : WireEvent → Bool
  | .text_chunk _ _ => true
  | _ => false

/-- A wire event is terminal: complete, error or interrupted. -/
def isTerminal : WireEvent → Bool
  | .complete _ => true
  | .error _ => true
  | .interrupted _ => true
  | _ => false

/-- A wire event is the Executing stage-entry status event. -/
def isExecStatus : WireEvent → Bool
  | .status .executor _ => true
  | _ => false

/-- Modelled from the spec: the session protocol layer forwards a run's events
until the run's terminal event has been sent and emits nothing for that run
afterwards (interrupt acknowledgment included). -/
def emitForRun : List WireEvent → List WireEvent
  | [] => []
  | e :: rest => if isTerminal e then [e] else e :: emitForRun rest

/-- The chunk indices carried by the text_chunk events of a list, in order. -/
def chunkIndices : List WireEvent → List Nat
  | [] => []
  | .text_chunk _ i :: rest => i :: chunkIndices rest
  | _ :: rest => chunkIndices rest

/-! ### Concrete sample values used to instantiate the theorems -/

/-- A streaming assistant placeholder message as sendMessage creates it. -/
def sampleAssistantMessage : ChatMessage :=
  { id := "a1"
    role := .assistant
    content := "正在分析..."
    isStreaming := true
    stage := none
    sqlQuery := none
    visualization := none
    debug := none
    highlights := none
    error := none }

/-- A chat state mid-run: one streaming assistant message, loading, current
message reference set. -/
def sampleChatState : ChatState :=
  { messages := [sampleAssistantMessage]
    isLoading := true
    currentMessageId := some "a1" }

/-- A complete payload with a final answer text. -/
def sampleCompletePayload : WSCompletePayload :=
  { message_id := "m1"
    text_answer := "上个月总销售额为 1,234 元"
    sql_query := some "SELECT SUM(amount) FROM orders"
    data_insight := none
    visualization := none
    debug := none }

/-- A status payload for the executor stage. -/
def sampleStatusPayload : WSStatusPayload :=
  { stage := .executor, message := "executing" }

/-- An interrupted payload. -/
def sampleInterruptedPayload : WSInterruptedPayload :=
  { message_id := "m1", partial_answer := none }

/-- A first-success cache write for a sample question. -/
def sampleUpsertArgs : UpsertArgs :=
  { rowId := 1
    fingerprint := "fp-1"
    question := "上个月总销售额"
    rewritten := some "查询上个月的总销售额"
    queryText := "SELECT SUM(amount) FROM orders"
    tables := ["orders"]
    score := 50 }

/-- A deprecated cache row. -/
def sampleDeprecatedEntry : CacheEntry :=
  { id := 7
    query_hash := "fp-7"
    original_query := "库存"
    rewritten_query := none
    sql := "SELECT 1"
    tables_used := []
    cache_score := 30
    hit_count := 2
    status := .deprecated }

/-- A journal row for a successful run. -/
def sampleLogEntry0 : LogEntry :=
  { id := 1
    query_text := "上个月总销售额"
    rewritten_query := some "查询上个月的总销售额"
    sql_generated := some "SELECT SUM(amount) FROM orders"
    tables_used := ["orders"]
    status := .success
    error_message := none
    result_row_count := some 1
    execution_time_ms := some 120
    cache_score := some 50
    cache_hit := false
    session_id := some "s1"
    message_id := some "m1"
    created_at := 100 }

/-- A second journal row, appended later. -/
def sampleLogEntry1 : LogEntry :=
  { id := 2
    query_text := "库存"
    rewritten_query := none
    sql_generated := none
    tables_used := []
    status := .error
    error_message := some "schema error"
    result_row_count := none
    execution_time_ms := some 40
    cache_score := none
    cache_hit := false
    session_id := some "s1"
    message_id := some "m2"
    created_at := 200 }

/-- Collaborators whose Execute attempts always return zero rows. -/
def sampleZeroRowsRun : Collaborators :=
  { intentResult := some "查询上个月的总销售额"
    cachedAnswer := none
    execOutcome := fun _ => .rows 0
    answerChunks := ["上个月", "总销售额为 1,234 元"]
    finalAnswer := "上个月总销售额为 1,234 元" }

/-- Collaborators whose Intent stage fails. -/
def sampleIntentFailRun : Collaborators :=
  { intentResult := none
    cachedAnswer := none
    execOutcome := fun _ => .rows 1
    answerChunks := []
    finalAnswer := "" }

/-! ## Theorems -/

/-- C5: the cache score is a pure function of its five validator inputs, always
lies in the interval 0..100, and a successful non-empty result with no
validators run scores exactly 50 (base 0, +30 SQL success, +20 non-empty,
+20 result validator, +20 completeness validator, +10 path validator). -/
theorem cache_score_pure_and_bounded :
    (∀ a b c d e : Bool, 0 ≤ cache_score a b c d e ∧ cache_score a b c d e ≤ 100)
    ∧ cache_score true true false false false = 50 := by
  refine ⟨?_, by decide⟩
  intro a b c d e
  cases a <;> cases b <;> cases c <;> cases d <;> cases e <;> exact ⟨Nat.zero_le _, by decide⟩

/-- C6 counterexample: per the query_hash column of schema_update_v2.sql the
fingerprint hashes the original question, so for a run whose Intent stage
rewrote the question, the stored fingerprint differs from the hash of the
rewritten question that the claim prescribes. -/
theorem fingerprint_of_rewritten_cex :
    query_hash_of { original := "上个月总销售额", rewritten := "查询上个月的总销售额" }
      ≠ spec_fingerprint_of { original := "上个月总销售额", rewritten := "查询上个月的总销售额" } := by
  decide

/-- C6 amended: the cache fingerprint is a deterministic content hash of the
original question text, so two submissions with the same original question map
to the same cache key, whatever their rewritten forms are. -/
theorem fingerprint_of_original_deterministic (r1 r2 : RunQuestion)
    (h : r1.original = r2.original) : query_hash_of r1 = query_hash_of r2 := by
  simp [query_hash_of, h]

/-- Witness for the amended C6 theorem at two concrete runs sharing the
original question but rewritten differently. -/
theorem fingerprint_of_original_deterministic_witness :
    (RunQuestion.mk "上个月总销售额" "A").original = (RunQuestion.mk "上个月总销售额" "B").original
    ∧ query_hash_of (RunQuestion.mk "上个月总销售额" "A")
        = query_hash_of (RunQuestion.mk "上个月总销售额" "B") :=
  ⟨rfl, fingerprint_of_original_deterministic _ _ rfl⟩

/-- C7 counterexample: the administrative status operation (the status select of
the Knowledge/Cache page via cacheApi.updateStatus) maps a deprecated entry back
to active, so the lifecycle is not one-directional under setStatus. -/
theorem set_status_reactivates_cex :
    sampleDeprecatedEntry.status = CacheStatus.deprecated
    ∧ (updateStatus [sampleDeprecatedEntry] 7 CacheStatus.active).map CacheEntry.status
        = [CacheStatus.active] := by
  exact ⟨rfl, rfl⟩

/-- C7 amended: status transitions are one-directional in automatic operation —
recording a cache hit never changes any entry's status, a first-success write
leaves existing statuses untouched and creates new entries as active — but the
administrative status operation can assign any of the three statuses, so an
entry it touches either keeps its old row value or carries exactly the
requested status, active included. -/
theorem status_lifecycle_amended :
    (∀ (store : List CacheEntry) (fp : String),
        (recordHit store fp).map CacheEntry.status = store.map CacheEntry.status)
    ∧ (∀ (store : List CacheEntry) (a : UpsertArgs),
        (upsertOnFirstSuccess store a).map CacheEntry.status = store.map CacheEntry.status
        ∨ (upsertOnFirstSuccess store a).map CacheEntry.status
            = store.map CacheEntry.status ++ [CacheStatus.active])
    ∧ (∀ (store : List CacheEntry) (id : Nat) (st : CacheStatus) (e : CacheEntry),
        e ∈ updateStatus store id st → e ∈ store ∨ e.status = st) := by
  refine ⟨?_, ?_, ?_⟩
  · intro store fp
    induction store with
    | nil => rfl
    | cons x t ih =>
        by_cases h : x.query_hash = fp <;>
          simp only [recordHit, List.map_cons, List.map_map] at ih ⊢ <;>
          simp [h, ih]
  · intro store a
    by_cases h : store.any (fun e => e.query_hash = a.fingerprint)
    · left
      simp [upsertOnFirstSuccess, h]
    · right
      simp [upsertOnFirstSuccess, h, newCacheRow]
  · intro store id st e he
    simp only [updateStatus, List.mem_map] at he
    rcases he with ⟨x, hx, hxe⟩
    by_cases h : x.id = id
    · right
      rw [if_pos h] at hxe
      rw [← hxe]
    · left
      rw [if_neg h] at hxe
      rw [← hxe]
      exact hx

/-- Witness for the amended C7 theorem: the updated row produced by setting a
deprecated entry to active is in the updated store and carries status active. -/
theorem status_lifecycle_amended_witness :
    ({ sampleDeprecatedEntry with status := CacheStatus.active } : CacheEntry)
        ∈ updateStatus [sampleDeprecatedEntry] 7 CacheStatus.active
    ∧ (({ sampleDeprecatedEntry with status := CacheStatus.active } : CacheEntry)
          ∈ [sampleDeprecatedEntry]
        ∨ ({ sampleDeprecatedEntry with status := CacheStatus.active } : CacheEntry).status
            = CacheStatus.active) :=
  ⟨by simp [updateStatus, sampleDeprecatedEntry],
   status_lifecycle_amended.2.2 [sampleDeprecatedEntry] 7 CacheStatus.active _
     (by simp [updateStatus, sampleDeprecatedEntry])⟩

/-- Processing a text_chunk message leaves the current-message reference as it
was: the text_chunk case of handleMessage only edits the messages array. -/
theorem handleMessage_text_chunk_ref (s : ChatState) (ch : String) :
    (handleMessage s (WSMessage.text_chunk ch)).currentMessageId = s.currentMessageId := rfl

/-- Processing any number of text_chunk messages leaves the current-message
reference as it was. -/
theorem handleMessages_chunks_ref (s : ChatState) (chunks : List String) :
    (handleMessages s (chunks.map WSMessage.text_chunk)).currentMessageId
      = s.currentMessageId := by
  induction chunks generalizing s with
  | nil => rfl
  | cons c t ih =>
      have h := ih (handleMessage s (WSMessage.text_chunk c))
      rw [handleMessage_text_chunk_ref] at h
      simpa [handleMessages, List.foldl_cons] using h

/-- C10: when a run completes, the final content of the current assistant
message equals exactly the text_answer of the complete payload, whatever (and
however many) text_chunk events were accumulated into that message before —
handleComplete replaces the concatenated chunk content instead of appending. -/
theorem complete_replaces_chunks
    (s : ChatState) (mid : String) (chunks : List String) (payload : WSCompletePayload)
    (hid : s.currentMessageId = some mid) :
    ∀ m ∈ (handleMessage (handleMessages s (chunks.map WSMessage.text_chunk))
        (WSMessage.complete payload)).messages,
      m.id = mid → m.content = payload.text_answer := by
  intro m hm hmid
  have h' : (handleMessages s (chunks.map WSMessage.text_chunk)).currentMessageId = some mid := by
    rw [handleMessages_chunks_ref]
    exact hid
  simp only [handleMessage, handleComplete, updateCurrentMessage, h', List.mem_map] at hm
  rcases hm with ⟨m0, _, hm0⟩
  by_cases h0 : m0.id = mid
  · rw [if_pos h0] at hm0
    rw [← hm0]
  · rw [if_neg h0] at hm0
    rw [← hm0] at hmid
    exact absurd hmid h0

/-- Witness for the C10 theorem: a state mid-stream, two accumulated chunks,
then a complete payload; the tracked message ends with exactly the final
answer text. -/
theorem complete_replaces_chunks_witness :
    sampleChatState.currentMessageId = some "a1"
    ∧ ∀ m ∈ (handleMessage (handleMessages sampleChatState
          (["上个月", "总销售额为 1,234 元"].map WSMessage.text_chunk))
          (WSMessage.complete sampleCompletePayload)).messages,
        m.id = "a1" → m.content = sampleCompletePayload.text_answer :=
  ⟨rfl, complete_replaces_chunks sampleChatState "a1" _ sampleCompletePayload rfl⟩

/-- C4: after an interrupt is acknowledged, later events cannot touch the run's
conversation state, and the session layer emits nothing for the run after its
terminal event. Part one: every terminal message (complete, error, interrupted)
clears the current-message reference. Part two: with the reference cleared,
handling any further message leaves the messages array unchanged. Part three:
in the event stream the session layer forwards for a run, nothing follows an
interrupted event. -/
theorem interrupt_stops_conversation_updates :
    (∀ (s : ChatState) (msg : WSMessage), WSMessage.isTerminalMsg msg = true →
        (handleMessage s msg).currentMessageId = none)
    ∧ (∀ (s : ChatState) (msg : WSMessage), s.currentMessageId = none →
        (handleMessage s msg).messages = s.messages)
    ∧ (∀ (evs : List WireEvent), ∀ (pre post : List WireEvent), ∀ (mid : String),
        emitForRun evs = pre ++ WireEvent.interrupted mid :: post → post = []) := by
  refine ⟨?_, ?_, ?_⟩
  · intro s msg h
    cases msg <;> simp [WSMessage.isTerminalMsg] at h <;>
      rfl
  · intro s msg h
    cases msg with
    | status p => simp [handleMessage, handleStatus, updateCurrentMessage, h]
    | text_chunk c => simp [handleMessage, h]
    | complete p => simp [handleMessage, handleComplete, updateCurrentMessage, h]
    | error p => simp [handleMessage, handleError, updateCurrentMessage, h]
    | interrupted p => simp [handleMessage, updateCurrentMessage, h]
    | pong => rfl
  · intro evs
    induction evs with
    | nil =>
        intro pre post mid h
        simp [emitForRun] at h
    | cons e rest ih =>
        intro pre post mid h
        simp only [emitForRun] at h
        by_cases ht : isTerminal e
        · rw [if_pos ht] at h
          cases pre with
          | nil =>
              simp only [List.nil_append] at h
              exact (List.cons.injEq _ _ _ _ ▸ h).2.symm ▸ rfl
          | cons p ps =>
              simp only [List.cons_append] at h
              have h2 := (List.cons.injEq _ _ _ _ ▸ h).2
              exact absurd h2.symm (List.append_ne_nil_of_right_ne_nil ps (List.cons_ne_nil _ _))
        · rw [if_neg ht] at h
          cases pre with
          | nil =>
              simp only [List.nil_append] at h
              have he := (List.cons.injEq _ _ _ _ ▸ h).1
              rw [he] at ht
              exact absurd rfl ht
          | cons p ps =>
              simp only [List.cons_append] at h
              exact ih ps post mid (List.cons.injEq _ _ _ _ ▸ h).2

/-- Witness for the C4 theorem: an interrupted message clears the reference of
the sample mid-run state; with the reference cleared a status message leaves the
messages untouched; and in a concrete forwarded stream nothing follows the
interrupted event. -/
theorem interrupt_stops_conversation_updates_witness :
    WSMessage.isTerminalMsg (WSMessage.interrupted sampleInterruptedPayload) = true
    ∧ (handleMessage sampleChatState
        (WSMessage.interrupted sampleInterruptedPayload)).currentMessageId = none
    ∧ (handleMessage (ChatState.mk [sampleAssistantMessage] false none)
          (WSMessage.status sampleStatusPayload)).messages
        = [sampleAssistantMessage]
    ∧ emitForRun [WireEvent.status .intent "x", WireEvent.interrupted "m1",
          WireEvent.status .planner "y"]
        = [WireEvent.status .intent "x"] ++ WireEvent.interrupted "m1" :: []
    ∧ ([] : List WireEvent) = [] :=
  ⟨rfl,
   interrupt_stops_conversation_updates.1 sampleChatState
     (WSMessage.interrupted sampleInterruptedPayload) rfl,
   interrupt_stops_conversation_updates.2.1
     (ChatState.mk [sampleAssistantMessage] false none)
     (WSMessage.status sampleStatusPayload) rfl,
   rfl,
   interrupt_stops_conversation_updates.2.2
     [WireEvent.status .intent "x", WireEvent.interrupted "m1", WireEvent.status .planner "y"]
     [WireEvent.status .intent "x"] [] "m1" rfl⟩

/-- Mapping a fingerprint-preserving function over the store preserves the
per-fingerprint row count. -/
theorem countFingerprint_map_eq (store : List CacheEntry) (fp : String)
    (f : CacheEntry → CacheEntry) (hf : ∀ e, (f e).query_hash = e.query_hash) :
    countFingerprint (store.map f) fp = countFingerprint store fp := by
  induction store with
  | nil => rfl
  | cons x t ih =>
      simp only [countFingerprint, List.map_cons, List.countP_cons] at ih ⊢
      rw [ih, hf x]

/-- A store holds no row for a fingerprint exactly when the insert-if-absent
presence test fails. -/
theorem countFingerprint_eq_zero_iff (store : List CacheEntry) (fp : String) :
    countFingerprint store fp = 0
      ↔ store.any (fun e => e.query_hash = fp) = false := by
  simp [countFingerprint, List.countP_eq_zero, List.any_eq_true]

/-- recordHit preserves every fingerprint count. -/
theorem recordHit_countFingerprint (store : List CacheEntry) (fpq fp : String) :
    countFingerprint (recordHit store fpq) fp = countFingerprint store fp := by
  refine countFingerprint_map_eq store fp _ ?_
  intro e
  by_cases he : e.query_hash = fpq <;> simp [he]

/-- The administrative status operation preserves every fingerprint count. -/
theorem updateStatus_countFingerprint (store : List CacheEntry) (id : Nat)
    (st : CacheStatus) (fp : String) :
    countFingerprint (updateStatus store id st) fp = countFingerprint store fp := by
  refine countFingerprint_map_eq store fp _ ?_
  intro e
  by_cases he : e.id = id <;> simp [he]

/-- When no row for the fingerprint exists, the first-success write appends the
fresh row. -/
theorem upsert_of_absent (store : List CacheEntry) (a : UpsertArgs)
    (h : countFingerprint store a.fingerprint = 0) :
    upsertOnFirstSuccess store a = store ++ [newCacheRow a] := by
  rw [upsertOnFirstSuccess, (countFingerprint_eq_zero_iff store a.fingerprint).mp h]
  simp

/-- When a row for the fingerprint already exists, the first-success write is a
no-op. -/
theorem upsert_of_present (store : List CacheEntry) (a : UpsertArgs)
    (h : 0 < countFingerprint store a.fingerprint) :
    upsertOnFirstSuccess store a = store := by
  rw [upsertOnFirstSuccess, if_pos]
  rcases List.countP_pos_iff.mp h with ⟨x, hx, hpx⟩
  exact List.any_eq_true.mpr ⟨x, hx, hpx⟩

/-- A first-success write into a store with no row for the fingerprint leaves
exactly one row for it. -/
theorem upsert_count_one (store : List CacheEntry) (a : UpsertArgs)
    (h : countFingerprint store a.fingerprint = 0) :
    countFingerprint (upsertOnFirstSuccess store a) a.fingerprint = 1 := by
  rw [upsert_of_absent store a h]
  simp [countFingerprint, List.countP_append, List.countP_cons, newCacheRow]
  simpa [countFingerprint] using h

/-- Any single cache operation keeps each fingerprint's row count at most one. -/
theorem applyCacheOp_count_le (store : List CacheEntry) (op : CacheOp) (fp : String)
    (h : countFingerprint store fp ≤ 1) :
    countFingerprint (applyCacheOp store op) fp ≤ 1 := by
  cases op with
  | upsert a =>
      rcases Nat.eq_zero_or_pos (countFingerprint store a.fingerprint) with h0 | h0
      · rw [applyCacheOp, upsert_of_absent store a h0]
        simp only [countFingerprint, List.countP_append, List.countP_cons,
          List.countP_nil] at h ⊢
        by_cases hfp : a.fingerprint = fp
        · subst hfp
          simp only [countFingerprint] at h0
          simp [h0, newCacheRow]
        · have : ((newCacheRow a).query_hash = fp) = False := by
            simp [newCacheRow, hfp]
          simp only [newCacheRow] at this ⊢
          simp only [this, decide_False]
          simpa using h
      · rw [applyCacheOp, upsert_of_present store a h0]
        exact h
  | hit fpq =>
      rw [applyCacheOp, recordHit_countFingerprint]
      exact h
  | setStatus id st =>
      rw [applyCacheOp, updateStatus_countFingerprint]
      exact h

/-- A whole serialised history of cache operations keeps each fingerprint's row
count at most one. -/
theorem applyCacheOps_count_le (ops : List CacheOp) (store : List CacheEntry) (fp : String)
    (h : countFingerprint store fp ≤ 1) :
    countFingerprint (applyCacheOps store ops) fp ≤ 1 := by
  induction ops generalizing store with
  | nil => exact h
  | cons op rest ih =>
      exact ih (applyCacheOp store op) (applyCacheOp_count_le store op fp h)

/-- Once exactly one row for a fingerprint exists, any further identical
first-success writes are no-ops. -/
theorem replicate_upsert_stable (a : UpsertArgs) (m : Nat) (store : List CacheEntry)
    (h : countFingerprint store a.fingerprint = 1) :
    applyCacheOps store (List.replicate m (CacheOp.upsert a)) = store := by
  induction m generalizing store with
  | zero => rfl
  | succ k ih =>
      have hop : applyCacheOp store (CacheOp.upsert a) = store :=
        upsert_of_present store a (by rw [h]; exact Nat.one_pos)
      simp only [List.replicate_succ, applyCacheOps, List.foldl_cons, hop]
      exact ih store h

/-- C1: at most one cache row per fingerprint at any time, and N serialised
identical first-time writes (the serialisation of N concurrent identical
first-time questions under the atomic insert-if-absent) leave exactly one row
for the fingerprint: the first insert stores the row and every duplicate is a
no-op. -/
theorem cache_unique_fingerprint :
    (∀ (ops : List CacheOp) (fp : String),
        countFingerprint (applyCacheOps [] ops) fp ≤ 1)
    ∧ (∀ (store : List CacheEntry) (a : UpsertArgs) (n : Nat),
        countFingerprint store a.fingerprint = 0 → 1 ≤ n →
        countFingerprint (applyCacheOps store (List.replicate n (CacheOp.upsert a)))
            a.fingerprint = 1) := by
  constructor
  · intro ops fp
    exact applyCacheOps_count_le ops [] fp (Nat.zero_le 1)
  · intro store a n h0 hn
    rcases Nat.exists_eq_add_of_le hn with ⟨m, hm⟩
    subst hm
    have h1 : countFingerprint (applyCacheOp store (CacheOp.upsert a)) a.fingerprint = 1 :=
      upsert_count_one store a h0
    rw [List.replicate_add, List.replicate_one]
    simp only [applyCacheOps, List.foldl_append, List.foldl_cons, List.foldl_nil]
    have hs := replicate_upsert_stable a m (applyCacheOp store (CacheOp.upsert a)) h1
    simp only [applyCacheOps] at hs
    rw [hs]
    exact h1

/-- Witness for the C1 theorem: three serialised identical first-time writes
into the empty store leave exactly one row for the fingerprint. -/
theorem cache_unique_fingerprint_witness :
    countFingerprint [] sampleUpsertArgs.fingerprint = 0
    ∧ 1 ≤ 3
    ∧ countFingerprint (applyCacheOps []
          (List.replicate 3 (CacheOp.upsert sampleUpsertArgs)))
        sampleUpsertArgs.fingerprint = 1 :=
  ⟨rfl, by decide,
   cache_unique_fingerprint.2 [] sampleUpsertArgs 3 rfl (by decide)⟩

/-- C9: journal rows are immutable once written — every row present after any
history of journal operations is either byte-for-byte a row of the initial
journal or byte-for-byte the row some append of the history wrote (operations
only add whole rows or remove whole rows, never changing a field of an existing
row), and an append leaves the existing prefix of the journal unchanged. -/
theorem journal_rows_immutable :
    (∀ (j : List LogEntry) (ops : List JournalOp) (e : LogEntry),
        e ∈ applyJournalOps j ops → e ∈ j ∨ JournalOp.append e ∈ ops)
    ∧ (∀ (j : List LogEntry) (e : LogEntry),
        (applyJournalOp j (JournalOp.append e)).take j.length = j) := by
  constructor
  · intro j ops
    induction ops generalizing j with
    | nil =>
        intro e he
        exact Or.inl he
    | cons op rest ih =>
        intro e he
        simp only [applyJournalOps, List.foldl_cons] at he
        have step := ih (applyJournalOp j op) e he
        rcases step with h1 | h2
        · cases op with
          | append x =>
              simp only [applyJournalOp, List.mem_append, List.mem_singleton] at h1
              rcases h1 with hj | hx
              · exact Or.inl hj
              · subst hx
                exact Or.inr (List.mem_cons_self _ _)
          | deleteRow id =>
              exact Or.inl (List.mem_of_mem_filter h1)
          | cleanup cutoff =>
              exact Or.inl (List.mem_of_mem_filter h1)
        · exact Or.inr (List.mem_cons_of_mem _ h2)
  · intro j e
    simp [applyJournalOp, List.take_left]

/-- Witness for the C9 theorem: a row appended by the history is recovered
exactly as appended. -/
theorem journal_rows_immutable_witness :
    sampleLogEntry1 ∈ applyJournalOps [sampleLogEntry0]
        [JournalOp.append sampleLogEntry1, JournalOp.deleteRow 99]
    ∧ (sampleLogEntry1 ∈ [sampleLogEntry0]
        ∨ JournalOp.append sampleLogEntry1
            ∈ [JournalOp.append sampleLogEntry1, JournalOp.deleteRow 99]) :=
  ⟨by decide,
   journal_rows_immutable.1 [sampleLogEntry0]
     [JournalOp.append sampleLogEntry1, JournalOp.deleteRow 99] sampleLogEntry1 (by decide)⟩

/-- A status event is neither a chunk nor terminal. -/
theorem isStatus_not_terminal (e : WireEvent) (h : isStatus e = true) :
    isTerminal e = false := by
  cases e <;> simp [isStatus, isTerminal] at h ⊢

/-- A chunk event is not terminal. -/
theorem isChunk_not_terminal (e : WireEvent) (h : isChunk e = true) :
    isTerminal e = false := by
  cases e <;> simp [isChunk, isTerminal] at h ⊢

/-- A chunk event is not an Executing status event. -/
theorem isChunk_not_execStatus (e : WireEvent) (h : isChunk e = true) :
    isExecStatus e = false := by
  cases e <;> simp [isChunk, isExecStatus] at h ⊢

/-- Unfolding equation of the cycle: a fatal Execute result ends the loop. -/
theorem execLoop_eq_fatal (c : Collaborators) (b k : Nat) (msg : String)
    (h : c.execOutcome k = ExecOutcome.fatal msg) :
    execLoop c b k = ([executingStatus], LoopOutcome.fatalError msg) := by
  cases b <;> simp [execLoop, h]

/-- Unfolding equation of the cycle: a result with rows succeeds. -/
theorem execLoop_eq_success (c : Collaborators) (b k n : Nat)
    (h : c.execOutcome k = ExecOutcome.rows (n + 1)) :
    execLoop c b k = ([executingStatus], LoopOutcome.success) := by
  cases b <;> simp [execLoop, h]

/-- Unfolding equation of the cycle: zero rows with no remaining budget
exhausts. -/
theorem execLoop_eq_rows0_zero (c : Collaborators) (k : Nat)
    (h : c.execOutcome k = ExecOutcome.rows 0) :
    execLoop c 0 k = ([executingStatus], LoopOutcome.exhausted) := by
  simp [execLoop, h]

/-- Unfolding equation of the cycle: zero rows with remaining budget spends one
attempt, requests a new plan and re-enters Executing. -/
theorem execLoop_eq_rows0_succ (c : Collaborators) (b k : Nat)
    (h : c.execOutcome k = ExecOutcome.rows 0) :
    execLoop c (b + 1) k
      = (executingStatus :: replanStatus :: (execLoop c b (k + 1)).1,
         (execLoop c b (k + 1)).2) := by
  simp [execLoop, h]

/-- Unfolding equation of the cycle: an uncorrectable schema error exhausts
immediately, at any remaining budget. -/
theorem execLoop_eq_schema_uncorrectable (c : Collaborators) (b k : Nat)
    (h : c.execOutcome k = ExecOutcome.schemaError false) :
    execLoop c b k = ([executingStatus], LoopOutcome.exhausted) := by
  cases b <;> simp [execLoop, h]

/-- Unfolding equation of the cycle: a correctable schema error with no
remaining budget exhausts. -/
theorem execLoop_eq_schema_zero (c : Collaborators) (k : Nat)
    (h : c.execOutcome k = ExecOutcome.schemaError true) :
    execLoop c 0 k = ([executingStatus], LoopOutcome.exhausted) := by
  simp [execLoop, h]

/-- Unfolding equation of the cycle: a correctable schema error with remaining
budget spends one attempt, requests a corrected plan and re-enters Executing. -/
theorem execLoop_eq_schema_succ (c : Collaborators) (b k : Nat)
    (h : c.execOutcome k = ExecOutcome.schemaError true) :
    execLoop c (b + 1) k
      = (executingStatus :: replanStatus :: (execLoop c b (k + 1)).1,
         (execLoop c b (k + 1)).2) := by
  simp [execLoop, h]

/-- Every event the Execute/Diagnose cycle emits is a status event. -/
theorem execLoop_all_status (c : Collaborators) :
    ∀ (b k : Nat), ∀ e ∈ (execLoop c b k).1, isStatus e = true := by
  intro b
  induction b with
  | zero =>
      intro k e he
      cases hout : c.execOutcome k with
      | rows n =>
          cases n with
          | zero =>
              rw [execLoop_eq_rows0_zero c k hout] at he
              simp at he
              simp [he, executingStatus, isStatus]
          | succ m =>
              rw [execLoop_eq_success c 0 k m hout] at he
              simp at he
              simp [he, executingStatus, isStatus]
      | schemaError correctable =>
          cases correctable with
          | false =>
              rw [execLoop_eq_schema_uncorrectable c 0 k hout] at he
              simp at he
              simp [he, executingStatus, isStatus]
          | true =>
              rw [execLoop_eq_schema_zero c k hout] at he
              simp at he
              simp [he, executingStatus, isStatus]
      | fatal msg =>
          rw [execLoop_eq_fatal c 0 k msg hout] at he
          simp at he
          simp [he, executingStatus, isStatus]
  | succ b ih =>
      intro k e he
      cases hout : c.execOutcome k with
      | rows n =>
          cases n with
          | zero =>
              rw [execLoop_eq_rows0_succ c b k hout] at he
              simp only [List.mem_cons] at he
              rcases he with he | he | he
              · simp [he, executingStatus, isStatus]
              · simp [he, replanStatus, isStatus]
              · exact ih (k + 1) e he
          | succ m =>
              rw [execLoop_eq_success c (b + 1) k m hout] at he
              simp at he
              simp [he, executingStatus, isStatus]
      | schemaError correctable =>
          cases correctable with
          | false =>
              rw [execLoop_eq_schema_uncorrectable c (b + 1) k hout] at he
              simp at he
              simp [he, executingStatus, isStatus]
          | true =>
              rw [execLoop_eq_schema_succ c b k hout] at he
              simp only [List.mem_cons] at he
              rcases he with he | he | he
              · simp [he, executingStatus, isStatus]
              · simp [he, replanStatus, isStatus]
              · exact ih (k + 1) e he
      | fatal msg =>
          rw [execLoop_eq_fatal c (b + 1) k msg hout] at he
          simp at he
          simp [he, executingStatus, isStatus]

/-- The Execute/Diagnose cycle enters Executing at most budget + 1 times: each
diagnosis cycle consumes one unit of the remaining budget before re-entering
Executing. -/
theorem execLoop_execCount_le (c : Collaborators) :
    ∀ (b k : Nat), (execLoop c b k).1.countP isExecStatus ≤ b + 1 := by
  intro b
  induction b with
  | zero =>
      intro k
      cases hout : c.execOutcome k with
      | rows n =>
          cases n with
          | zero =>
              rw [execLoop_eq_rows0_zero c k hout]
              simp [List.countP_cons, executingStatus, isExecStatus]
          | succ m =>
              rw [execLoop_eq_success c 0 k m hout]
              simp [List.countP_cons, executingStatus, isExecStatus]
      | schemaError correctable =>
          cases correctable with
          | false =>
              rw [execLoop_eq_schema_uncorrectable c 0 k hout]
              simp [List.countP_cons, executingStatus, isExecStatus]
          | true =>
              rw [execLoop_eq_schema_zero c k hout]
              simp [List.countP_cons, executingStatus, isExecStatus]
      | fatal msg =>
          rw [execLoop_eq_fatal c 0 k msg hout]
          simp [List.countP_cons, executingStatus, isExecStatus]
  | succ b ih =>
      intro k
      cases hout : c.execOutcome k with
      | rows n =>
          cases n with
          | zero =>
              rw [execLoop_eq_rows0_succ c b k hout]
              simp [List.countP_cons, executingStatus, replanStatus, isExecStatus]
              have := ih (k + 1)
              omega
          | succ m =>
              rw [execLoop_eq_success c (b + 1) k m hout]
              simp [List.countP_cons, executingStatus, isExecStatus]
      | schemaError correctable =>
          cases correctable with
          | false =>
              rw [execLoop_eq_schema_uncorrectable c (b + 1) k hout]
              simp [List.countP_cons, executingStatus, isExecStatus]
          | true =>
              rw [execLoop_eq_schema_succ c b k hout]
              simp [List.countP_cons, executingStatus, replanStatus, isExecStatus]
              have := ih (k + 1)
              omega
      | fatal msg =>
          rw [execLoop_eq_fatal c (b + 1) k msg hout]
          simp [List.countP_cons, executingStatus, isExecStatus]

/-- A fatal loop outcome always stems from an actual fatal Execute result. -/
theorem execLoop_fatal_source (c : Collaborators) :
    ∀ (b k : Nat) (msg : String), (execLoop c b k).2 = LoopOutcome.fatalError msg →
      ∃ i, c.execOutcome i = ExecOutcome.fatal msg := by
  intro b
  induction b with
  | zero =>
      intro k msg h
      cases hout : c.execOutcome k with
      | rows n =>
          cases n with
          | zero => rw [execLoop_eq_rows0_zero c k hout] at h; exact absurd h (by simp)
          | succ m => rw [execLoop_eq_success c 0 k m hout] at h; exact absurd h (by simp)
      | schemaError correctable =>
          cases correctable with
          | false =>
              rw [execLoop_eq_schema_uncorrectable c 0 k hout] at h
              exact absurd h (by simp)
          | true =>
              rw [execLoop_eq_schema_zero c k hout] at h
              exact absurd h (by simp)
      | fatal m =>
          rw [execLoop_eq_fatal c 0 k m hout] at h
          simp at h
          exact ⟨k, by rw [hout, h]⟩
  | succ b ih =>
      intro k msg h
      cases hout : c.execOutcome k with
      | rows n =>
          cases n with
          | zero =>
              rw [execLoop_eq_rows0_succ c b k hout] at h
              exact ih (k + 1) msg h
          | succ m =>
              rw [execLoop_eq_success c (b + 1) k m hout] at h
              exact absurd h (by simp)
      | schemaError correctable =>
          cases correctable with
          | false =>
              rw [execLoop_eq_schema_uncorrectable c (b + 1) k hout] at h
              exact absurd h (by simp)
          | true =>
              rw [execLoop_eq_schema_succ c b k hout] at h
              exact ih (k + 1) msg h
      | fatal m =>
          rw [execLoop_eq_fatal c (b + 1) k m hout] at h
          simp at h
          exact ⟨k, by rw [hout, h]⟩

/-- Every event produced from the streamed answer chunks is a text_chunk. -/
theorem chunkEvents_all_chunk (l : List String) :
    ∀ e ∈ chunkEvents l, isChunk e = true := by
  intro e he
  simp only [chunkEvents, List.mem_map] at he
  rcases he with ⟨p, _, hp⟩
  simp [← hp, isChunk]

/-- The chunk indices of the produced chunk events count up from n. -/
theorem chunkIndices_enumFrom (l : List String) :
    ∀ n, chunkIndices ((List.enumFrom n l).map (fun p => WireEvent.text_chunk p.2 p.1))
      = List.range' n l.length := by
  induction l with
  | nil => intro n; rfl
  | cons a t ih =>
      intro n
      simp only [List.enumFrom, List.map_cons, chunkIndices, List.length_cons]
      rw [List.range'_succ n t.length 1, ih (n + 1)]

/-- The chunk events carry the indices 0, 1, … in order. -/
theorem chunkIndices_chunkEvents (l : List String) :
    chunkIndices (chunkEvents l) = List.range l.length := by
  rw [List.range_eq_range' l.length]
  exact chunkIndices_enumFrom l 0

/-- The chunk indices of the produced chunk events are strictly increasing. -/
theorem chunkEvents_indices_increasing (l : List String) :
    List.Pairwise (· < ·) (chunkIndices (chunkEvents l)) := by
  rw [chunkIndices_chunkEvents]
  exact List.pairwise_lt_range l.length

/-- No error event sits among the chunk events. -/
theorem not_error_mem_chunkEvents (l : List String) (m : String) :
    WireEvent.error m ∉ chunkEvents l := by
  intro h
  have := chunkEvents_all_chunk l _ h
  simp [isChunk] at this

/-- Decomposition of a full run's event trace: some status events, then the
chunk events (or none), then a single terminal event. -/
theorem runPipeline_decomp (c : Collaborators) (cap : Nat) :
    ∃ ss cs t, runPipeline c cap = ss ++ cs ++ [t]
      ∧ (∀ e ∈ ss, isStatus e = true)
      ∧ (cs = chunkEvents c.answerChunks ∨ cs = [])
      ∧ isTerminal t = true := by
  cases hint : c.intentResult with
  | none =>
      refine ⟨[WireEvent.status .intent "正在理解您的问题..."], [],
        WireEvent.error "intent failed", ?_, ?_, Or.inr rfl, rfl⟩
      · simp [runPipeline, hint]
      · intro e he
        simp at he
        simp [he, isStatus]
  | some r =>
      cases hcache : c.cachedAnswer with
      | some ans =>
          refine ⟨[WireEvent.status .intent "正在理解您的问题...",
              WireEvent.status .planner "正在生成查询方案...",
              WireEvent.status .responder "正在生成回答..."],
            chunkEvents c.answerChunks, WireEvent.complete ans, ?_, ?_, Or.inl rfl, rfl⟩
          · simp [runPipeline, hint, hcache]
          · intro e he
            simp only [List.mem_cons, List.not_mem_nil, or_false] at he
            rcases he with he | he | he <;> simp [he, isStatus]
      | none =>
          cases hloop : (execLoop c cap 0).2 with
          | fatalError msg =>
              refine ⟨[WireEvent.status .intent "正在理解您的问题...",
                  WireEvent.status .planner "正在生成查询方案..."] ++ (execLoop c cap 0).1,
                [], WireEvent.error msg, ?_, ?_, Or.inr rfl, rfl⟩
              · simp [runPipeline, hint, hcache, hloop]
              · intro e he
                simp only [List.mem_append, List.mem_cons, List.not_mem_nil, or_false] at he
                rcases he with (he | he) | he
                · simp [he, isStatus]
                · simp [he, isStatus]
                · exact execLoop_all_status c cap 0 e he
          | success =>
              refine ⟨[WireEvent.status .intent "正在理解您的问题...",
                  WireEvent.status .planner "正在生成查询方案..."] ++ (execLoop c cap 0).1
                  ++ [WireEvent.status .analyzer "正在分析数据...",
                      WireEvent.status .responder "正在生成回答..."],
                chunkEvents c.answerChunks, WireEvent.complete c.finalAnswer,
                ?_, ?_, Or.inl rfl, rfl⟩
              · simp [runPipeline, hint, hcache, hloop]
              · intro e he
                simp only [List.mem_append, List.mem_cons, List.not_mem_nil, or_false] at he
                rcases he with ((he | he) | he) | (he | he)
                · simp [he, isStatus]
                · simp [he, isStatus]
                · exact execLoop_all_status c cap 0 e he
                · simp [he, isStatus]
                · simp [he, isStatus]
          | exhausted =>
              refine ⟨[WireEvent.status .intent "正在理解您的问题...",
                  WireEvent.status .planner "正在生成查询方案..."] ++ (execLoop c cap 0).1
                  ++ [WireEvent.status .responder "正在生成回答..."],
                [], WireEvent.complete noResultsMessage, ?_, ?_, Or.inr rfl, rfl⟩
              · simp [runPipeline, hint, hcache, hloop]
              · intro e he
                simp only [List.mem_append, List.mem_cons, List.not_mem_nil, or_false] at he
                rcases he with ((he | he) | he) | he
                · simp [he, isStatus]
                · simp [he, isStatus]
                · exact execLoop_all_status c cap 0 e he
                · simp [he, isStatus]

/-- Chunk events contribute nothing to the Executing-status count. -/
theorem chunkEvents_execCount (l : List String) :
    (chunkEvents l).countP isExecStatus = 0 := by
  refine List.countP_eq_zero.mpr ?_
  intro e he
  have := isChunk_not_execStatus e (chunkEvents_all_chunk l e he)
  simp [this]

/-- C3: every run's emitted event sequence is zero or more status events, then
zero or more text_chunk events in increasing chunk_index order, then exactly
one terminal event (complete, error or interrupted) — never zero terminals and
never more than one. -/
theorem wire_events_well_ordered (c : Collaborators) (cap : Nat) :
    ∃ ss cs t,
      runPipeline c cap = ss ++ cs ++ [t]
      ∧ (∀ e ∈ ss, isStatus e = true)
      ∧ (∀ e ∈ cs, isChunk e = true)
      ∧ List.Pairwise (· < ·) (chunkIndices cs)
      ∧ isTerminal t = true
      ∧ (runPipeline c cap).countP isTerminal = 1 := by
  obtain ⟨ss, cs, t, heq, hss, hcs, ht⟩ := runPipeline_decomp c cap
  refine ⟨ss, cs, t, heq, hss, ?_, ?_, ht, ?_⟩
  · rcases hcs with h | h
    · rw [h]
      exact chunkEvents_all_chunk c.answerChunks
    · rw [h]
      intro e he
      simp at he
  · rcases hcs with h | h
    · rw [h]
      exact chunkEvents_indices_increasing c.answerChunks
    · rw [h]
      exact List.Pairwise.nil
  · rw [heq]
    have hss0 : ss.countP isTerminal = 0 := by
      refine List.countP_eq_zero.mpr ?_
      intro e he
      have := isStatus_not_terminal e (hss e he)
      simp [this]
    have hcs0 : cs.countP isTerminal = 0 := by
      rcases hcs with h | h
      · subst h
        refine List.countP_eq_zero.mpr ?_
        intro e he
        have := isChunk_not_terminal e (chunkEvents_all_chunk _ e he)
        simp [this]
      · subst h
        rfl
    simp [List.countP_append, hss0, hcs0, List.countP_cons, ht]

/-- Witness for the C3 theorem at a concrete run that diagnoses twice and
exhausts. -/
theorem wire_events_well_ordered_witness :
    ∃ ss cs t,
      runPipeline sampleZeroRowsRun 2 = ss ++ cs ++ [t]
      ∧ (∀ e ∈ ss, isStatus e = true)
      ∧ (∀ e ∈ cs, isChunk e = true)
      ∧ List.Pairwise (· < ·) (chunkIndices cs)
      ∧ isTerminal t = true
      ∧ (runPipeline sampleZeroRowsRun 2).countP isTerminal = 1 :=
  wire_events_well_ordered sampleZeroRowsRun 2

/-- C2: for every cap, a run performs at most cap + 1 Execute attempts and
always ends in a terminal event; with cap 0, the first diagnosable failure
exhausts immediately after a single Execute attempt. -/
theorem diagnosing_terminates_within_cap (c : Collaborators) (cap : Nat) :
    (runPipeline c cap).countP isExecStatus ≤ cap + 1
    ∧ (∃ pre t, runPipeline c cap = pre ++ [t] ∧ isTerminal t = true)
    ∧ (∀ k, c.execOutcome k = ExecOutcome.rows 0 →
        (execLoop c 0 k).2 = LoopOutcome.exhausted
        ∧ (execLoop c 0 k).1.countP isExecStatus = 1) := by
  refine ⟨?_, ?_, ?_⟩
  · cases hint : c.intentResult with
    | none =>
        simp [runPipeline, hint, List.countP_cons, isExecStatus]
    | some r =>
        cases hcache : c.cachedAnswer with
        | some ans =>
            simp [runPipeline, hint, hcache, List.countP_append, List.countP_cons,
              isExecStatus, chunkEvents_execCount]
        | none =>
            have hb := execLoop_execCount_le c cap 0
            cases hloop : (execLoop c cap 0).2 with
            | fatalError msg =>
                simp [runPipeline, hint, hcache, hloop, List.countP_append,
                  List.countP_cons, isExecStatus, chunkEvents_execCount]
                omega
            | success =>
                simp [runPipeline, hint, hcache, hloop, List.countP_append,
                  List.countP_cons, isExecStatus, chunkEvents_execCount]
                omega
            | exhausted =>
                simp [runPipeline, hint, hcache, hloop, List.countP_append,
                  List.countP_cons, isExecStatus, chunkEvents_execCount]
                omega
  · obtain ⟨ss, cs, t, heq, _, _, ht⟩ := runPipeline_decomp c cap
    refine ⟨ss ++ cs, t, ?_, ht⟩
    rw [heq, List.append_assoc]
  · intro k hk
    rw [execLoop_eq_rows0_zero c k hk]
    exact ⟨rfl, by simp [executingStatus, isExecStatus, List.countP_cons]⟩

/-- Witness for the C2 theorem: with cap 0, the sample run whose Execute always
returns zero rows exhausts immediately with exactly one Execute attempt, and
its whole trace has at most one Execute status. -/
theorem diagnosing_terminates_within_cap_witness :
    sampleZeroRowsRun.execOutcome 0 = ExecOutcome.rows 0
    ∧ (execLoop sampleZeroRowsRun 0 0).2 = LoopOutcome.exhausted
    ∧ (execLoop sampleZeroRowsRun 0 0).1.countP isExecStatus = 1
    ∧ (runPipeline sampleZeroRowsRun 0).countP isExecStatus ≤ 0 + 1 :=
  ⟨rfl,
   ((diagnosing_terminates_within_cap sampleZeroRowsRun 0).2.2 0 rfl).1,
   ((diagnosing_terminates_within_cap sampleZeroRowsRun 0).2.2 0 rfl).2,
   (diagnosing_terminates_within_cap sampleZeroRowsRun 0).1⟩

/-- C8: when the diagnosis loop exhausts (cap reached or no correction found),
a run that actually reached Executing terminates with a normal complete event
carrying the no-results answer, not with an error event; and an error event
only ever stems from an Intent failure or a fatal Execute outcome. -/
theorem exhaustion_completes_normally (c : Collaborators) (cap : Nat) :
    ((¬ c.intentResult = none) → c.cachedAnswer = none →
        (execLoop c cap 0).2 = LoopOutcome.exhausted →
        ∃ pre, runPipeline c cap = pre ++ [WireEvent.complete noResultsMessage])
    ∧ (∀ m, WireEvent.error m ∈ runPipeline c cap →
        c.intentResult = none ∨ ∃ k, c.execOutcome k = ExecOutcome.fatal m) := by
  constructor
  · intro hi hc hx
    cases hint : c.intentResult with
    | none => exact absurd hint hi
    | some r =>
        refine ⟨[WireEvent.status .intent "正在理解您的问题...",
            WireEvent.status .planner "正在生成查询方案..."] ++ (execLoop c cap 0).1
            ++ [WireEvent.status .responder "正在生成回答..."], ?_⟩
        simp [runPipeline, hint, hc, hx]
  · intro m hm
    cases hint : c.intentResult with
    | none => exact Or.inl rfl
    | some r =>
        refine Or.inr ?_
        cases hcache : c.cachedAnswer with
        | some ans =>
            simp [runPipeline, hint, hcache] at hm
            exact absurd hm (not_error_mem_chunkEvents _ _)
        | none =>
            cases hloop : (execLoop c cap 0).2 with
            | success =>
                simp [runPipeline, hint, hcache, hloop] at hm
                rcases hm with hm | hm
                · have := execLoop_all_status c cap 0 _ hm
                  simp [isStatus] at this
                · exact absurd hm (not_error_mem_chunkEvents _ _)
            | exhausted =>
                simp [runPipeline, hint, hcache, hloop] at hm
                have := execLoop_all_status c cap 0 _ hm
                simp [isStatus] at this
            | fatalError msg =>
                simp [runPipeline, hint, hcache, hloop] at hm
                rcases hm with hm | hm
                · have := execLoop_all_status c cap 0 _ hm
                  simp [isStatus] at this
                · subst hm
                  exact execLoop_fatal_source c cap 0 _ hloop

/-- Witness for the C8 theorem: the sample zero-rows run with cap 1 exhausts
and ends with the no-results completion, and the intent-failure run's error
event is traced back to its intent failure. -/
theorem exhaustion_completes_normally_witness :
    (¬ sampleZeroRowsRun.intentResult = none)
    ∧ sampleZeroRowsRun.cachedAnswer = none
    ∧ (execLoop sampleZeroRowsRun 1 0).2 = LoopOutcome.exhausted
    ∧ (∃ pre, runPipeline sampleZeroRowsRun 1
        = pre ++ [WireEvent.complete noResultsMessage])
    ∧ WireEvent.error "intent failed" ∈ runPipeline sampleIntentFailRun 0
    ∧ (sampleIntentFailRun.intentResult = none
        ∨ ∃ k, sampleIntentFailRun.execOutcome k = ExecOutcome.fatal "intent failed") :=
  ⟨by simp [sampleZeroRowsRun], rfl, rfl,
   (exhaustion_completes_normally sampleZeroRowsRun 1).1 (by simp [sampleZeroRowsRun]) rfl rfl,
   by simp [runPipeline, sampleIntentFailRun],
   (exhaustion_completes_normally sampleIntentFailRun 0).2 "intent failed"
     (by simp [runPipeline, sampleIntentFailRun])⟩

end TalkToBI
